import Mathlib

/-!
Shallow embedding of the KPI aggregation and scenario-simulation core of
`dashboard.py` (car-sales-prediction-model).

Forecast rows carry `date`, `english_name`, nullable `actual_value` and
`predicted_value`, and the optional confidence-band columns
`yhat_lower` / `yhat_upper`.  Historical rows carry `date`, `english_name`
and `monthly_value`.  Dates are represented by their ordinal (`Nat`),
numeric values by `ℚ`.
-/

namespace CarSales

/-- Row of the forecast table (`forecast_master_data.csv` after validation). -/
structure Row where
  date : Nat
  name : String
  actual : Option ℚ
  predicted : Option ℚ
  yhatLower : Option ℚ := none
  yhatUpper : Option ℚ := none
deriving DecidableEq

/-- Row of the cleaned historical table (`cleaned_master_data.csv`). -/
structure HRow where
  date : Nat
  name : String
  value : ℚ
deriving DecidableEq

/-- ASCII lowercasing of one character, what `str.lower()` does on the ASCII
kpi names of this data set. -/
def lowerChar (c : Char) : Char :=
  if 'A' ≤ c ∧ c ≤ 'Z' then Char.ofNat (c.toNat + 32) else c

/-- Whitespace test matching the characters `str.strip()` removes. -/
def isWS (c : Char) : Bool :=
  c = ' ' || c = '\t' || c = '\n' || c = '\r' || c.toNat = 11 || c.toNat = 12

/-- Normalisation used by every ad-hoc kpi map in the source:
`kpi.lower().strip()` (lowercase, then strip whitespace from both ends). -/
def normalize (s : String) : String :=
  ⟨(((s.data.map lowerChar).dropWhile isWS).reverse.dropWhile isWS).reverse⟩

/-- First-occurrence deduplication, the order `pandas.Series.unique` returns. -/
def dedupFirst : List String → List String
  | [] => []
  | x :: xs => x :: (dedupFirst xs).filter (fun y => y ≠ x)

/-- First-occurrence deduplication on dates. -/
def dedupDates : List Nat → List Nat
  | [] => []
  | x :: xs => x :: (dedupDates xs).filter (fun y => y ≠ x)

/-- Insertion into an ascending list. -/
def insertAsc (x : Nat) : List Nat → List Nat
  | [] => [x]
  | y :: ys => if x ≤ y then x :: y :: ys else y :: insertAsc x ys

/-- Insertion sort, ascending: the order a pandas outer-join index union uses. -/
def sortAsc : List Nat → List Nat
  | [] => []
  | x :: xs => insertAsc x (sortAsc xs)

/-- Distinct kpi names of a table, in first-occurrence order
(`df['english_name'].unique()`). -/
def uniqueNames (t : List Row) : List String := dedupFirst (t.map (·.name))

/-- Resolution through the dict comprehension
`{kpi.lower().strip(): kpi for kpi in unique_kpis}`: the dictionary keeps the
last name (in unique order) that normalises to the requested key. -/
def kpiLookup (t : List Row) (key : String) : Option String :=
  ((uniqueNames t).filter (fun n => normalize n = key)).getLast?

/-- Rows of the table carrying exactly the given kpi name
(`df[df['english_name'] == kpi]`). -/
def rowsFor (t : List Row) (n : String) : List Row :=
  t.filter (fun r => r.name = n)

/-- Elementwise addition with `fill_value=0`: a missing side is treated as `0`,
but two missing sides stay missing (NaN + NaN = NaN). -/
def addOpt : Option ℚ → Option ℚ → Option ℚ
  | none, none => none
  | some a, none => some (a + 0)
  | none, some b => some (0 + b)
  | some a, some b => some (a + b)

/-- Row of the given kpi series at a date, if any (`set_index('date')` lookup;
the table invariant makes at most one row match). -/
def valueAt (rs : List Row) (d : Nat) : Option Row :=
  (rs.filter (fun r => r.date = d)).head?

/-- Date axis produced by `DataFrame.add` alignment: identical indexes are kept
as they are, otherwise the sorted union of the two (outer join). -/
def datesUnion (da db : List Nat) : List Nat :=
  if da = db then da else sortAsc (dedupDates (da ++ db))

/-- Composite row at one date: only `actual_value` and `predicted_value` are
kept (the source selects `[['actual_value', 'predicted_value']]`), the name is
set to the output name, every other column is left missing. -/
def combineRow (out : String) (ra rb : List Row) (d : Nat) : Row :=
  { date := d
    name := out
    actual := addOpt ((valueAt ra d).bind (·.actual)) ((valueAt rb d).bind (·.actual))
    predicted := addOpt ((valueAt ra d).bind (·.predicted)) ((valueAt rb d).bind (·.predicted))
    yhatLower := none
    yhatUpper := none }

/-- All composite rows of one summation block:
`a.add(b, fill_value=0)[['actual_value','predicted_value']].reset_index()`. -/
def compositeRows (ra rb : List Row) (out : String) : List Row :=
  (datesUnion (ra.map (·.date)) (rb.map (·.date))).map (combineRow out ra rb)

/-- One summation block of `calculate_summary_kpis`, the spec's
`buildComposite(table, componentA_lower, componentB_lower, outputName)`:
resolve both lowercase keys case-insensitively; if either is missing return the
table unchanged, else append one composite row per date of the outer join. -/
def buildComposite (t : List Row) (aKey bKey out : String) : List Row :=
  match kpiLookup t aKey, kpiLookup t bKey with
  | some an, some bn => t ++ compositeRows (rowsFor t an) (rowsFor t bn) out
  | _, _ => t

/-- Embedding of `calculate_summary_kpis` exactly as staged in the source: the
kpi map is built once from the input table, the second block selects its
component rows from the table already extended by the first block. -/
def calculate_summary_kpis (df : List Row) : List Row :=
  let step1 : List Row :=
    match kpiLookup df "new vehicles - retail", kpiLookup df "used vehicles - retail" with
    | some an, some bn =>
        df ++ compositeRows (rowsFor df an) (rowsFor df bn) "Total Vehicle Sales (Verified)"
    | _, _ => df
  match kpiLookup df "gross profit - new vehicles", kpiLookup df "gross profit - used vehicles" with
  | some an, some bn =>
      step1 ++ compositeRows (rowsFor step1 an) (rowsFor step1 bn) "Total Gross Profit (Verified)"
  | _, _ => step1

/-- Deep-dive extraction (`render_kpi_deep_dive`): the kpi's rows in table
order, and `kpi_data[kpi_data['actual_value'].isna()].head(3)`. -/
def extractSeries (df : List Row) (k : String) : List Row × List Row :=
  let kd := rowsFor df k
  (kd, (kd.filter (fun r => r.actual.isNone)).take 3)

/-- Correlation matrix handed to the scenario planner, abstracted as its set
of kpi names (the matrix axes) together with its entries. -/
structure CorrMatrix where
  names : List String
  entry : String → String → ℚ

/-- Lookup on line 159 of the source:
`matrix.loc[d, i] if d in matrix and i in matrix else 0.0`. -/
def lookupCorr (m : CorrMatrix) (d i : String) : ℚ :=
  if d ∈ m.names ∧ i ∈ m.names then m.entry d i else 0

/-- Scenario result: the seven numbers the planner derives and displays. -/
structure ScenarioResult where
  originalDriver : ℚ
  adjustedDriver : ℚ
  deltaDriver : ℚ
  originalImpacted : ℚ
  adjustedImpacted : ℚ
  deltaImpacted : ℚ
  corr : ℚ
deriving DecidableEq

/-- Outcome of a scenario request.  `noFutureData` is the early return behind
the warning on lines 149-151; `indexError` is the `.iloc[0]` failure when no
row matches the requested kpi and date; `nanResult` stands for a missing
(NaN) predicted value propagating through the arithmetic. -/
inductive ScenarioOutcome where
  | noFutureData
  | indexError
  | nanResult
  | result (r : ScenarioResult)
deriving DecidableEq

/-- Embedding of the calculation of `render_scenario_planner` (lines 146-165):
filter the driver rows, return `noFutureData` when no forecast (actual absent)
row exists, otherwise read both predicted values at the target date and apply
the two adjustment formulas. -/
def simulate (t : List Row) (m : CorrMatrix) (driver impacted : String)
    (targetDate : Nat) (pct : ℚ) : ScenarioOutcome :=
  let driverData := rowsFor t driver
  let futureRows := driverData.filter (fun r => r.actual.isNone)
  if futureRows.isEmpty then .noFutureData
  else
    let corr := lookupCorr m driver impacted
    match (driverData.filter (fun r => r.date = targetDate)).head?,
        (t.filter (fun r => r.name = impacted ∧ r.date = targetDate)).head? with
    | some dr, some ir =>
        match dr.predicted, ir.predicted with
        | some od, some oi =>
            .result { originalDriver := od
                      adjustedDriver := od * (1 + pct)
                      deltaDriver := od * (1 + pct) - od
                      originalImpacted := oi
                      adjustedImpacted := oi * (1 + pct * corr)
                      deltaImpacted := oi * (1 + pct * corr) - oi
                      corr := corr }
        | _, _ => .nanResult
    | _, _ => .indexError

/-- Date axis of the pivot `cleaned_df.pivot_table(index='date', ...)`:
distinct dates, ascending. -/
def histDates (t : List HRow) : List Nat := sortAsc (dedupDates (t.map (·.date)))

/-- Cell of the zero-filled pivot grid: `pivot_table` aggregates duplicate
(date, kpi) rows with their mean, and `fillna(0)` turns an empty cell into 0. -/
def cell (t : List HRow) (k : String) (d : Nat) : ℚ :=
  let vs := (t.filter (fun r => r.name = k ∧ r.date = d)).map (·.value)
  if vs.isEmpty then 0 else vs.sum / vs.length

/-- Column of the zero-filled pivot grid for one kpi, along the date axis. -/
def series (t : List HRow) (k : String) : List ℚ :=
  (histDates t).map (cell t k)

/-- Mean of a list of rationals (0 for the empty list, as 0/0 = 0 in ℚ). -/
def listMean (xs : List ℚ) : ℚ := xs.sum / xs.length

/-- Deviations from the mean. -/
def devs (xs : List ℚ) : List ℚ := xs.map (fun x => x - listMean xs)

/-- Sum of products of deviations, the building block of Pearson correlation:
for equal-length series this is `n·cov(x, y)`. -/
def sdev (xs ys : List ℚ) : ℚ := (List.zipWith (fun a b => a * b) (devs xs) (devs ys)).sum

/-- Pearson correlation of two aligned series, as `DataFrame.corr` computes it:
`Σ dx·dy / √(Σ dx² · Σ dy²)`, and `none` (NaN) when either sum of squared
deviations vanishes (zero variance, or fewer than two points). -/
noncomputable def pearson (xs ys : List ℚ) : Option ℝ :=
  if sdev xs xs = 0 ∨ sdev ys ys = 0 then none
  else some ((sdev xs ys : ℝ) / Real.sqrt ((sdev xs xs : ℝ) * (sdev ys ys : ℝ)))

/-- Entry of the correlation matrix
`cleaned_df.pivot_table(index='date', columns='english_name',
values='monthly_value').fillna(0).corr()` for a pair of kpi names. -/
noncomputable def corrMatrixEntry (t : List HRow) (a b : String) : Option ℝ :=
  pearson (series t a) (series t b)

/-! Helper lemmas about the list machinery of the embedding. -/

theorem mem_dedupDates {x : Nat} : ∀ l : List Nat, x ∈ dedupDates l ↔ x ∈ l := by
  intro l
  induction l with
  | nil => simp [dedupDates]
  | cons a l ih =>
      by_cases hx : x = a
      · subst hx; simp [dedupDates]
      · simp [dedupDates, hx, List.mem_filter, ih]

theorem nodup_dedupDates : ∀ l : List Nat, (dedupDates l).Nodup := by
  intro l
  induction l with
  | nil => simp [dedupDates]
  | cons a l ih =>
      refine List.Nodup.cons ?_ (List.Nodup.filter _ ih)
      intro hmem
      exact (by simpa using (List.mem_filter.mp hmem).2)

theorem mem_insertAsc {x a : Nat} : ∀ l : List Nat, x ∈ insertAsc a l ↔ x = a ∨ x ∈ l := by
  intro l
  induction l with
  | nil => simp [insertAsc]
  | cons y l ih =>
      unfold insertAsc
      by_cases h : a ≤ y
      · simp [h]
      · simp only [h, if_neg, not_false_iff, List.mem_cons, ih]
        tauto

theorem mem_sortAsc {x : Nat} : ∀ l : List Nat, x ∈ sortAsc l ↔ x ∈ l := by
  intro l
  induction l with
  | nil => simp [sortAsc]
  | cons a l ih => simp [sortAsc, mem_insertAsc, ih]

theorem nodup_insertAsc {a : Nat} : ∀ {l : List Nat}, a ∉ l → l.Nodup → (insertAsc a l).Nodup := by
  intro l
  induction l with
  | nil => intro _ _; simp [insertAsc]
  | cons y l ih =>
      intro ha hl
      unfold insertAsc
      by_cases h : a ≤ y
      · rw [if_pos h]
        exact List.nodup_cons.mpr ⟨ha, hl⟩
      · rw [if_neg h]
        have hay : a ≠ y := fun hc => ha (hc ▸ List.mem_cons_self _ _)
        have hnl : a ∉ l := fun hc => ha (List.mem_cons_of_mem _ hc)
        have hy : y ∉ insertAsc a l := by
          rw [mem_insertAsc]
          rintro (rfl | hc)
          · exact hay rfl
          · exact (List.nodup_cons.mp hl).1 hc
        exact List.nodup_cons.mpr ⟨hy, ih hnl (List.nodup_cons.mp hl).2⟩

theorem nodup_sortAsc : ∀ {l : List Nat}, l.Nodup → (sortAsc l).Nodup := by
  intro l
  induction l with
  | nil => intro _; simp [sortAsc]
  | cons a l ih =>
      intro h
      have := List.nodup_cons.mp h
      exact nodup_insertAsc (fun hc => this.1 ((mem_sortAsc l).mp hc)) (ih this.2)

theorem mem_datesUnion {x : Nat} (da db : List Nat) :
    x ∈ datesUnion da db ↔ x ∈ da ∨ x ∈ db := by
  unfold datesUnion
  by_cases h : da = db
  · subst h; simp
  · simp [h, mem_sortAsc, mem_dedupDates, List.mem_append]

theorem mem_dedupFirst {x : String} : ∀ l : List String, x ∈ dedupFirst l ↔ x ∈ l := by
  intro l
  induction l with
  | nil => simp [dedupFirst]
  | cons a l ih =>
      by_cases hx : x = a
      · subst hx; simp [dedupFirst]
      · simp [dedupFirst, hx, List.mem_filter, ih]

theorem filter_dedupFirst_append (p : String → Bool) :
    ∀ (l1 l2 : List String), (∀ x ∈ l2, p x = false) →
      (dedupFirst (l1 ++ l2)).filter p = (dedupFirst l1).filter p := by
  intro l1
  induction l1 with
  | nil =>
      intro l2 h
      simp only [List.nil_append, dedupFirst]
      refine List.filter_eq_nil_iff.mpr ?_
      intro x hx
      simp [h x ((mem_dedupFirst l2).mp hx)]
  | cons a l1 ih =>
      intro l2 h
      simp only [List.cons_append, dedupFirst, List.filter_cons, List.append_eq]
      by_cases hpa : p a = true
      · rw [if_pos hpa, if_pos hpa, List.filter_comm, ih l2 h, ← List.filter_comm]
      · rw [if_neg hpa, if_neg hpa, List.filter_comm, ih l2 h, ← List.filter_comm]

theorem kpiLookup_append {t s : List Row} {key : String}
    (h : ∀ r ∈ s, ¬ normalize r.name = key) :
    kpiLookup (t ++ s) key = kpiLookup t key := by
  unfold kpiLookup uniqueNames
  rw [List.map_append, filter_dedupFirst_append]
  intro x hx
  rcases List.mem_map.mp hx with ⟨r, hr, rfl⟩
  simpa using h r hr

theorem kpiLookup_row {t : List Row} {key an : String} (h : kpiLookup t key = some an) :
    ∃ r ∈ t, r.name = an := by
  have hmem : an ∈ ((uniqueNames t).filter (fun n => normalize n = key)) := by
    rcases List.mem_getLast?_eq_getLast (show an ∈ (_ : List String).getLast? from h) with
      ⟨hne, rfl⟩
    exact List.getLast_mem hne
  have : an ∈ (t.map (·.name)) :=
    (mem_dedupFirst _).mp (List.mem_of_mem_filter hmem)
  rcases List.mem_map.mp this with ⟨r, hr, hname⟩
  exact ⟨r, hr, hname⟩

theorem rowsFor_ne_nil {t : List Row} {key an : String} (h : kpiLookup t key = some an) :
    rowsFor t an ≠ [] := by
  rcases kpiLookup_row h with ⟨r, hr, hname⟩
  intro hnil
  have : r ∈ rowsFor t an := by
    unfold rowsFor
    exact List.mem_filter.mpr ⟨hr, by simp [hname]⟩
  simp [hnil] at this

theorem datesUnion_ne_nil {da db : List Nat} (h : da ≠ []) : datesUnion da db ≠ [] := by
  rcases List.exists_mem_of_ne_nil da h with ⟨x, hx⟩
  intro hnil
  have : x ∈ datesUnion da db := (mem_datesUnion da db).mpr (Or.inl hx)
  simp [hnil] at this

theorem compositeRows_names {ra rb : List Row} {out : String} {r : Row}
    (h : r ∈ compositeRows ra rb out) : r.name = out ∧ r.yhatLower = none ∧ r.yhatUpper = none := by
  rcases List.mem_map.mp h with ⟨d, _, rfl⟩
  exact ⟨rfl, rfl, rfl⟩

/-! Claim theorems. -/

/-- C8.  The output of `buildComposite` is the input table with rows appended
(the original rows are untouched), and when either component kpi fails to
resolve case-insensitively, the output is exactly the input table — the
function returns normally, it raises nothing. -/
theorem buildComposite_frame (t : List Row) (aKey bKey out : String) :
    (∃ s, buildComposite t aKey bKey out = t ++ s) ∧
      (kpiLookup t aKey = none ∨ kpiLookup t bKey = none →
        buildComposite t aKey bKey out = t) := by
  unfold buildComposite
  constructor
  · cases ha : kpiLookup t aKey with
    | none => exact ⟨[], by simp⟩
    | some an =>
        cases hb : kpiLookup t bKey with
        | none => exact ⟨[], by simp⟩
        | some bn => exact ⟨_, rfl⟩
  · rintro (h | h)
    · rw [h]
    · rw [h]; cases kpiLookup t aKey <;> rfl

/-- Concrete one-row forecast table: only the new-vehicles component exists. -/
def tblOnlyNew : List Row :=
  [{ date := 1, name := "New Vehicles - Retail", actual := some 10, predicted := none }]

/-- Witness for C8 at a concrete table: the gross-profit components do not
resolve, so the table comes back unchanged. -/
theorem buildComposite_frame_witness :
    (kpiLookup tblOnlyNew "gross profit - new vehicles" = none ∨
      kpiLookup tblOnlyNew "gross profit - used vehicles" = none) ∧
    buildComposite tblOnlyNew "gross profit - new vehicles" "gross profit - used vehicles"
        "Total Gross Profit (Verified)" = tblOnlyNew := by
  refine ⟨Or.inl (by decide), ?_⟩
  exact (buildComposite_frame _ _ _ _).2 (Or.inl (by decide))

/-- C10.  Every row appended by `buildComposite` carries only the date, the
output kpi name and the two summed value columns: the confidence-interval
columns `yhat_lower` / `yhat_upper` are missing on every appended row, whatever
the component rows carry. -/
theorem composite_rows_only_core_fields (t : List Row) (aKey bKey out : String) :
    ∀ r ∈ (buildComposite t aKey bKey out).drop t.length,
      r.name = out ∧ r.yhatLower = none ∧ r.yhatUpper = none := by
  unfold buildComposite
  cases ha : kpiLookup t aKey with
  | none => simp
  | some an =>
      cases hb : kpiLookup t bKey with
      | none => simp
      | some bn =>
          intro r hr
          rw [List.drop_left] at hr
          exact compositeRows_names hr

theorem nodup_datesUnion {da db : List Nat} (hna : da.Nodup) : (datesUnion da db).Nodup := by
  unfold datesUnion
  by_cases h : da = db
  · rw [if_pos h]; exact hna
  · rw [if_neg h]; exact nodup_sortAsc (nodup_dedupDates _)

theorem appended_rows {t : List Row} {aK bK out an bn : String}
    (ha : kpiLookup t aK = some an) (hb : kpiLookup t bK = some bn) :
    (buildComposite t aK bK out).drop t.length
      = compositeRows (rowsFor t an) (rowsFor t bn) out := by
  unfold buildComposite
  rw [ha, hb, List.drop_left]

theorem compositeRows_dates (ra rb : List Row) (out : String) :
    (compositeRows ra rb out).map (·.date)
      = datesUnion (ra.map (·.date)) (rb.map (·.date)) := by
  unfold compositeRows
  rw [List.map_map]
  show List.map (fun d => d) _ = _
  simp

theorem filter_eq_of_nodup : ∀ {l : List Nat}, l.Nodup → ∀ {d : Nat}, d ∈ l →
    l.filter (fun x => x = d) = [d] := by
  intro l
  induction l with
  | nil => intro _ d hd; simp at hd
  | cons a l ih =>
      intro h d hd
      rcases List.nodup_cons.mp h with ⟨hal, hl⟩
      by_cases hda : a = d
      · subst hda
        have : l.filter (fun x => x = a) = [] := by
          refine List.filter_eq_nil_iff.mpr ?_
          intro x hx
          simp only [decide_eq_true_eq]
          rintro rfl
          exact hal hx
        simp [List.filter_cons, this]
      · have hdl : d ∈ l := by
          rcases List.mem_cons.mp hd with h1 | h1
          · exact absurd h1.symm hda
          · exact h1
        simp [List.filter_cons, hda, ih hl hdl]

/-- Actual value a kpi series carries at a date, if any. -/
def actualAt (rs : List Row) (d : Nat) : Option ℚ := (valueAt rs d).bind (·.actual)

/-- Predicted value a kpi series carries at a date, if any. -/
def predictedAt (rs : List Row) (d : Nat) : Option ℚ := (valueAt rs d).bind (·.predicted)

theorem compositeRows_filter_date (ra rb : List Row) (out : String) {d : Nat}
    (hn : (datesUnion (ra.map (·.date)) (rb.map (·.date))).Nodup)
    (hd : d ∈ datesUnion (ra.map (·.date)) (rb.map (·.date))) :
    (compositeRows ra rb out).filter (fun r => r.date = d) = [combineRow out ra rb d] := by
  unfold compositeRows
  rw [List.filter_map]
  have h2 : ((fun r : Row => decide (r.date = d)) ∘ combineRow out ra rb)
      = fun x => decide (x = d) := rfl
  rw [h2, filter_eq_of_nodup hn hd]
  rfl

/-- C9.  When the driver kpi has no forecast rows (no row with `actual_value`
absent), the scenario planner returns the `noFutureData` outcome as a plain
value: no calculation is attempted and nothing is raised. -/
theorem simulate_no_future_data (t : List Row) (m : CorrMatrix) (d i : String)
    (td : Nat) (p : ℚ) (h : (rowsFor t d).filter (fun r => r.actual.isNone) = []) :
    simulate t m d i td p = ScenarioOutcome.noFutureData := by
  simp [simulate, h]

/-- Concrete forecast table whose only kpi has actuals everywhere. -/
def tblPast : List Row :=
  [{ date := 1, name := "Demand", actual := some 5, predicted := some 6 }]

/-- Trivial correlation matrix for witnesses. -/
def mEmpty : CorrMatrix := ⟨[], fun _ _ => 0⟩

/-- Witness for C9: the driver has no future rows, so the simulator reports
`noFutureData`. -/
theorem simulate_no_future_data_witness :
    (rowsFor tblPast "Demand").filter (fun r => r.actual.isNone) = [] ∧
      simulate tblPast mEmpty "Demand" "Profit" 1 0 = ScenarioOutcome.noFutureData := by
  refine ⟨by decide, ?_⟩
  exact simulate_no_future_data _ _ _ _ _ _ (by decide)

/-- C3.  When both components resolve, the dates of the appended composite
rows are exactly the union of the two components' date sets, one row per
date (an outer join on the date axis). -/
theorem composite_dates_union {t : List Row} {aK bK out an bn : String}
    (ha : kpiLookup t aK = some an) (hb : kpiLookup t bK = some bn)
    (hna : ((rowsFor t an).map (·.date)).Nodup)
    (_hnb : ((rowsFor t bn).map (·.date)).Nodup) :
    (((buildComposite t aK bK out).drop t.length).map (·.date)).Nodup ∧
      ∀ d : Nat, d ∈ ((buildComposite t aK bK out).drop t.length).map (·.date) ↔
        (d ∈ (rowsFor t an).map (·.date) ∨ d ∈ (rowsFor t bn).map (·.date)) := by
  rw [appended_rows ha hb, compositeRows_dates]
  exact ⟨nodup_datesUnion hna, fun d => mem_datesUnion _ _⟩

/-- Concrete table: component A has dates {1, 2}, component B has dates
{2, 3} — the spec's Jan/Feb + Feb/Mar example. -/
def tblJanFebMar : List Row :=
  [{ date := 1, name := "New Vehicles - Retail", actual := some 1, predicted := none },
   { date := 2, name := "New Vehicles - Retail", actual := some 2, predicted := none },
   { date := 2, name := "Used Vehicles - Retail", actual := some 10, predicted := none },
   { date := 3, name := "Used Vehicles - Retail", actual := some 20, predicted := none }]

/-- Witness for C3 on the Jan/Feb + Feb/Mar example: date 3 (Mar) belongs to
the composite exactly because one component has it. -/
theorem composite_dates_union_witness :
    kpiLookup tblJanFebMar "new vehicles - retail" = some "New Vehicles - Retail" ∧
    kpiLookup tblJanFebMar "used vehicles - retail" = some "Used Vehicles - Retail" ∧
    ((rowsFor tblJanFebMar "New Vehicles - Retail").map (·.date)).Nodup ∧
    ((rowsFor tblJanFebMar "Used Vehicles - Retail").map (·.date)).Nodup ∧
    (3 ∈ ((buildComposite tblJanFebMar "new vehicles - retail" "used vehicles - retail"
        "Total Vehicle Sales (Verified)").drop tblJanFebMar.length).map (·.date) ↔
      (3 ∈ (rowsFor tblJanFebMar "New Vehicles - Retail").map (·.date) ∨
        3 ∈ (rowsFor tblJanFebMar "Used Vehicles - Retail").map (·.date))) := by
  refine ⟨by decide, by decide, by decide, by decide, ?_⟩
  exact (composite_dates_union (by decide) (by decide) (by decide) (by decide)).2 3

/-- C2.  For every date in the union of the two components' date sets, the
appended composite row sums the components' values with a missing side treated
as 0, independently for `actual_value` and `predicted_value`, except that two
missing sides give a missing value (null), not 0. -/
theorem composite_values_sum (t : List Row) (aK bK out an bn : String) (d : Nat)
    (ha : kpiLookup t aK = some an) (hb : kpiLookup t bK = some bn)
    (hna : ((rowsFor t an).map (·.date)).Nodup)
    (_hnb : ((rowsFor t bn).map (·.date)).Nodup)
    (hd : d ∈ (rowsFor t an).map (·.date) ∨ d ∈ (rowsFor t bn).map (·.date)) :
    (∀ x y : ℚ, actualAt (rowsFor t an) d = some x → actualAt (rowsFor t bn) d = some y →
      actualAt ((buildComposite t aK bK out).drop t.length) d = some (x + y)) ∧
    (∀ x : ℚ, actualAt (rowsFor t an) d = some x → actualAt (rowsFor t bn) d = none →
      actualAt ((buildComposite t aK bK out).drop t.length) d = some (x + 0)) ∧
    (∀ y : ℚ, actualAt (rowsFor t an) d = none → actualAt (rowsFor t bn) d = some y →
      actualAt ((buildComposite t aK bK out).drop t.length) d = some (0 + y)) ∧
    (actualAt (rowsFor t an) d = none → actualAt (rowsFor t bn) d = none →
      actualAt ((buildComposite t aK bK out).drop t.length) d = none) ∧
    (∀ x y : ℚ, predictedAt (rowsFor t an) d = some x → predictedAt (rowsFor t bn) d = some y →
      predictedAt ((buildComposite t aK bK out).drop t.length) d = some (x + y)) ∧
    (∀ x : ℚ, predictedAt (rowsFor t an) d = some x → predictedAt (rowsFor t bn) d = none →
      predictedAt ((buildComposite t aK bK out).drop t.length) d = some (x + 0)) ∧
    (∀ y : ℚ, predictedAt (rowsFor t an) d = none → predictedAt (rowsFor t bn) d = some y →
      predictedAt ((buildComposite t aK bK out).drop t.length) d = some (0 + y)) ∧
    (predictedAt (rowsFor t an) d = none → predictedAt (rowsFor t bn) d = none →
      predictedAt ((buildComposite t aK bK out).drop t.length) d = none) := by
  have hdu : d ∈ datesUnion ((rowsFor t an).map (·.date)) ((rowsFor t bn).map (·.date)) :=
    (mem_datesUnion _ _).mpr hd
  have hfd : ((buildComposite t aK bK out).drop t.length).filter (fun r => r.date = d)
      = [combineRow out (rowsFor t an) (rowsFor t bn) d] := by
    rw [appended_rows ha hb]
    exact compositeRows_filter_date _ _ _ (nodup_datesUnion hna) hdu
  have hact : actualAt ((buildComposite t aK bK out).drop t.length) d
      = addOpt (actualAt (rowsFor t an) d) (actualAt (rowsFor t bn) d) := by
    unfold actualAt valueAt
    rw [hfd]
    rfl
  have hpred : predictedAt ((buildComposite t aK bK out).drop t.length) d
      = addOpt (predictedAt (rowsFor t an) d) (predictedAt (rowsFor t bn) d) := by
    unfold predictedAt valueAt
    rw [hfd]
    rfl
  refine ⟨?_, ?_, ?_, ?_, ?_, ?_, ?_, ?_⟩ <;> intros <;>
    first
    | (rw [hact]; simp_all [addOpt])
    | (rw [hpred]; simp_all [addOpt])

/-- Concrete table exercising every summation case: at date 2 one actual side
is missing, at date 1 the B component has no row at all, so both predicted
sides are missing. -/
def tblMixed : List Row :=
  [{ date := 1, name := "New Vehicles - Retail", actual := some 3, predicted := none },
   { date := 2, name := "New Vehicles - Retail", actual := some 4, predicted := some 7 },
   { date := 2, name := "Used Vehicles - Retail", actual := none, predicted := some 5 }]

/-- Witness for C2 at date 1: the one-sided actual is summed with 0, and the
predicted value — missing on both sides — stays missing instead of 0. -/
theorem composite_values_sum_witness :
    kpiLookup tblMixed "new vehicles - retail" = some "New Vehicles - Retail" ∧
    kpiLookup tblMixed "used vehicles - retail" = some "Used Vehicles - Retail" ∧
    actualAt (rowsFor tblMixed "New Vehicles - Retail") 1 = some 3 ∧
    actualAt (rowsFor tblMixed "Used Vehicles - Retail") 1 = none ∧
    actualAt ((buildComposite tblMixed "new vehicles - retail" "used vehicles - retail"
        "Total Vehicle Sales (Verified)").drop tblMixed.length) 1 = some (3 + 0) ∧
    predictedAt ((buildComposite tblMixed "new vehicles - retail" "used vehicles - retail"
        "Total Vehicle Sales (Verified)").drop tblMixed.length) 1 = none := by
  refine ⟨by decide, by decide, by decide, by decide, ?_, ?_⟩
  · exact (composite_values_sum tblMixed "new vehicles - retail" "used vehicles - retail"
      "Total Vehicle Sales (Verified)" "New Vehicles - Retail" "Used Vehicles - Retail" 1
      (by decide) (by decide) (by decide) (by decide)
      (Or.inl (by decide))).2.1 3 (by decide) (by decide)
  · exact (composite_values_sum tblMixed "new vehicles - retail" "used vehicles - retail"
      "Total Vehicle Sales (Verified)" "New Vehicles - Retail" "Used Vehicles - Retail" 1
      (by decide) (by decide) (by decide) (by decide)
      (Or.inl (by decide))).2.2.2.2.2.2.2 (by decide) (by decide)

/-- C1.  On the normal path (the driver has forecast rows and both kpis carry
a predicted value at the target date) the simulator returns exactly
`adjustedDriver = originalDriver * (1 + percentChange)` and
`adjustedImpacted = originalImpacted * (1 + percentChange * corr)` with `corr`
the matrix entry for the pair; in particular a 1000 driver value with a 10%
change and correlation 0.5 gives 1100.00 and `originalImpacted * 1.05`, and a
zero correlation leaves the impacted value unchanged. -/
theorem scenario_adjustment_formulas (t : List Row) (m : CorrMatrix)
    (driver impacted : String) (td : Nat) (p od oi : ℚ)
    (hfut : (rowsFor t driver).filter (fun r => r.actual.isNone) ≠ [])
    (hod : (((rowsFor t driver).filter (fun r => r.date = td)).head?).bind (·.predicted)
      = some od)
    (hoi : ((t.filter (fun r => r.name = impacted ∧ r.date = td)).head?).bind (·.predicted)
      = some oi) :
    simulate t m driver impacted td p = ScenarioOutcome.result
      { originalDriver := od
        adjustedDriver := od * (1 + p)
        deltaDriver := od * (1 + p) - od
        originalImpacted := oi
        adjustedImpacted := oi * (1 + p * lookupCorr m driver impacted)
        deltaImpacted := oi * (1 + p * lookupCorr m driver impacted) - oi
        corr := lookupCorr m driver impacted } ∧
    (od = 1000 → p = 1/10 → lookupCorr m driver impacted = 1/2 →
      od * (1 + p) = 1100 ∧ oi * (1 + p * lookupCorr m driver impacted) = oi * (21/20)) ∧
    (lookupCorr m driver impacted = 0 → oi * (1 + p * lookupCorr m driver impacted) = oi) := by
  refine ⟨?_, ?_, ?_⟩
  · rcases Option.bind_eq_some.mp hod with ⟨dr, hdr, hdrp⟩
    rcases Option.bind_eq_some.mp hoi with ⟨ir, hir, hirp⟩
    unfold simulate
    rw [if_neg (by simpa [List.isEmpty_iff] using hfut), hdr, hir]
    simp only [hdrp, hirp]
  · rintro rfl rfl hc
    rw [hc]
    norm_num
  · intro hc
    rw [hc]
    ring

/-- Concrete forecast table for the end-to-end scenario example: the driver
predicts 1000 in month 3, the impacted kpi predicts 200 there. -/
def tblScenario : List Row :=
  [{ date := 3, name := "New Vehicles - Retail", actual := none, predicted := some 1000 },
   { date := 3, name := "Gross Profit - New Vehicles", actual := none, predicted := some 200 }]

/-- Correlation matrix whose every entry for the two scenario kpis is 0.5. -/
def mHalf : CorrMatrix :=
  ⟨["New Vehicles - Retail", "Gross Profit - New Vehicles"], fun _ _ => 1/2⟩

/-- Witness for C1: the worked example of the spec, 1000 → 1100.00 at +10%
with correlation 0.5, and the impacted value scaled by 21/20 = 1.05. -/
theorem scenario_adjustment_formulas_witness :
    (rowsFor tblScenario "New Vehicles - Retail").filter (fun r => r.actual.isNone) ≠ [] ∧
    (((rowsFor tblScenario "New Vehicles - Retail").filter
        (fun r => r.date = 3)).head?).bind (·.predicted) = some 1000 ∧
    ((tblScenario.filter (fun r => r.name = "Gross Profit - New Vehicles" ∧ r.date = 3)).head?).bind
        (·.predicted) = some 200 ∧
    simulate tblScenario mHalf "New Vehicles - Retail" "Gross Profit - New Vehicles" 3 (1/10)
      = ScenarioOutcome.result
        { originalDriver := 1000
          adjustedDriver := 1000 * (1 + 1/10)
          deltaDriver := 1000 * (1 + 1/10) - 1000
          originalImpacted := 200
          adjustedImpacted :=
            200 * (1 + (1/10) * lookupCorr mHalf "New Vehicles - Retail" "Gross Profit - New Vehicles")
          deltaImpacted :=
            200 * (1 + (1/10) * lookupCorr mHalf "New Vehicles - Retail" "Gross Profit - New Vehicles")
              - 200
          corr := lookupCorr mHalf "New Vehicles - Retail" "Gross Profit - New Vehicles" } ∧
    (1000 : ℚ) * (1 + 1/10) = 1100 ∧
    (200 : ℚ) * (1 + (1/10) * lookupCorr mHalf "New Vehicles - Retail" "Gross Profit - New Vehicles")
      = 200 * (21/20) := by
  have hmain := scenario_adjustment_formulas tblScenario mHalf "New Vehicles - Retail"
    "Gross Profit - New Vehicles" 3 (1/10) 1000 200
    (by decide) (by decide) (by decide)
  have hc : lookupCorr mHalf "New Vehicles - Retail" "Gross Profit - New Vehicles" = 1/2 := by
    norm_num [lookupCorr, mHalf]
  refine ⟨by decide, by decide, by decide, hmain.1, ?_, ?_⟩
  · exact (hmain.2.1 rfl rfl hc).1
  · exact (hmain.2.1 rfl rfl hc).2

theorem compositeRows_ne_nil {ra : List Row} (rb : List Row) (out : String)
    (h : ra ≠ []) : compositeRows ra rb out ≠ [] := by
  unfold compositeRows
  intro hnil
  exact datesUnion_ne_nil (by simpa using h) (List.map_eq_nil_iff.mp hnil)

theorem calc_frame (t : List Row) :
    ∃ s, calculate_summary_kpis t = t ++ s ∧
      ∀ r ∈ s, r.name = "Total Vehicle Sales (Verified)" ∨
        r.name = "Total Gross Profit (Verified)" := by
  unfold calculate_summary_kpis
  cases h1 : kpiLookup t "new vehicles - retail" with
  | none =>
      cases h3 : kpiLookup t "gross profit - new vehicles" with
      | none => exact ⟨[], by simp⟩
      | some gn =>
          cases h4 : kpiLookup t "gross profit - used vehicles" with
          | none => exact ⟨[], by simp⟩
          | some gm =>
              refine ⟨_, rfl, ?_⟩
              intro r hr
              exact Or.inr (compositeRows_names hr).1
  | some an =>
      cases h2 : kpiLookup t "used vehicles - retail" with
      | none =>
          cases h3 : kpiLookup t "gross profit - new vehicles" with
          | none => exact ⟨[], by simp⟩
          | some gn =>
              cases h4 : kpiLookup t "gross profit - used vehicles" with
              | none => exact ⟨[], by simp⟩
              | some gm =>
                  refine ⟨_, rfl, ?_⟩
                  intro r hr
                  exact Or.inr (compositeRows_names hr).1
      | some bn =>
          cases h3 : kpiLookup t "gross profit - new vehicles" with
          | none =>
              refine ⟨_, rfl, ?_⟩
              intro r hr
              exact Or.inl (compositeRows_names hr).1
          | some gn =>
              cases h4 : kpiLookup t "gross profit - used vehicles" with
              | none =>
                  refine ⟨_, rfl, ?_⟩
                  intro r hr
                  exact Or.inl (compositeRows_names hr).1
              | some gm =>
                  refine ⟨_, (List.append_assoc _ _ _), ?_⟩
                  intro r hr
                  rcases List.mem_append.mp hr with hr | hr
                  · exact Or.inl (compositeRows_names hr).1
                  · exact Or.inr (compositeRows_names hr).1

theorem calc_lookup_preserved (t : List Row) (key : String)
    (h1 : ¬ normalize "Total Vehicle Sales (Verified)" = key)
    (h2 : ¬ normalize "Total Gross Profit (Verified)" = key) :
    kpiLookup (calculate_summary_kpis t) key = kpiLookup t key := by
  rcases calc_frame t with ⟨s, hs, hnames⟩
  rw [hs]
  refine kpiLookup_append ?_
  intro r hr
  rcases hnames r hr with h | h <;> rw [h]
  · exact h1
  · exact h2

theorem calc_salesPart {t : List Row} {an bn : String}
    (ha : kpiLookup t "new vehicles - retail" = some an)
    (hb : kpiLookup t "used vehicles - retail" = some bn) :
    ∃ s2, calculate_summary_kpis t
      = (t ++ compositeRows (rowsFor t an) (rowsFor t bn) "Total Vehicle Sales (Verified)")
        ++ s2 := by
  unfold calculate_summary_kpis
  rw [ha, hb]
  cases h3 : kpiLookup t "gross profit - new vehicles" with
  | none => exact ⟨[], by simp⟩
  | some gn =>
      cases h4 : kpiLookup t "gross profit - used vehicles" with
      | none => exact ⟨[], by simp⟩
      | some gm => exact ⟨_, rfl⟩

theorem calc_length_lt {t : List Row} {an bn : String}
    (ha : kpiLookup t "new vehicles - retail" = some an)
    (hb : kpiLookup t "used vehicles - retail" = some bn) :
    t.length < (calculate_summary_kpis t).length := by
  rcases calc_salesPart ha hb with ⟨s2, hs⟩
  rw [hs, List.append_assoc, List.length_append]
  have hpos : 0 < (compositeRows (rowsFor t an) (rowsFor t bn)
      "Total Vehicle Sales (Verified)" ++ s2).length := by
    rw [List.length_append]
    have := List.length_pos.mpr
      (compositeRows_ne_nil (rowsFor t bn) "Total Vehicle Sales (Verified)"
        (rowsFor_ne_nil ha))
    omega
  omega

/-- Forecast table with both sales components present at one date. -/
def tblSales : List Row :=
  [{ date := 1, name := "New Vehicles - Retail", actual := some 10, predicted := none },
   { date := 1, name := "Used Vehicles - Retail", actual := some 5, predicted := some 7 }]

/-- Counterexample to C4 as stated: re-applying `calculate_summary_kpis` to
its own output does accumulate rows — the components still resolve on the
extended table, so a second copy of the composite rows is appended and the
result differs from the single application (4 rows against 3). -/
theorem summary_kpis_reapply_differs :
    calculate_summary_kpis (calculate_summary_kpis tblSales)
      ≠ calculate_summary_kpis tblSales := by
  intro h
  have h1 : (calculate_summary_kpis (calculate_summary_kpis tblSales)).length = 4 := by decide
  have h2 : (calculate_summary_kpis tblSales).length = 3 := by decide
  rw [h, h2] at h1
  exact absurd h1 (by decide)

/-- C4 (amended).  `calculate_summary_kpis` is a pure function, so running it
twice on the same input table trivially yields identical output rows; but it
is not idempotent: whenever the two sales components resolve, applying it to
its own output appends a further copy of the composite rows, so the second
application's output differs from the first. -/
theorem summary_kpis_not_idempotent (t : List Row) (an bn : String)
    (ha : kpiLookup t "new vehicles - retail" = some an)
    (hb : kpiLookup t "used vehicles - retail" = some bn) :
    calculate_summary_kpis (calculate_summary_kpis t) ≠ calculate_summary_kpis t := by
  have hka : kpiLookup (calculate_summary_kpis t) "new vehicles - retail" = some an := by
    rw [calc_lookup_preserved t _ (by decide) (by decide)]
    exact ha
  have hkb : kpiLookup (calculate_summary_kpis t) "used vehicles - retail" = some bn := by
    rw [calc_lookup_preserved t _ (by decide) (by decide)]
    exact hb
  intro h
  have hlt := calc_length_lt hka hkb
  rw [h] at hlt
  exact lt_irrefl _ hlt

/-- Witness for the amended C4 at the two-row sales table. -/
theorem summary_kpis_not_idempotent_witness :
    kpiLookup tblSales "new vehicles - retail" = some "New Vehicles - Retail" ∧
    kpiLookup tblSales "used vehicles - retail" = some "Used Vehicles - Retail" ∧
    calculate_summary_kpis (calculate_summary_kpis tblSales)
      ≠ calculate_summary_kpis tblSales :=
  ⟨by decide, by decide,
    summary_kpis_not_idempotent tblSales "New Vehicles - Retail" "Used Vehicles - Retail"
      (by decide) (by decide)⟩

/-- Forecast table whose only kpi appears out of date order: dates 4, 1, 2, 3,
all of them forecast rows (actual absent). -/
def tblUnsorted : List Row :=
  [{ date := 4, name := "Demand", actual := none, predicted := some 1 },
   { date := 1, name := "Demand", actual := none, predicted := some 2 },
   { date := 2, name := "Demand", actual := none, predicted := some 3 },
   { date := 3, name := "Demand", actual := none, predicted := some 4 }]

/-- Counterexample to C5 as stated: the source never sorts, it slices the
first three rows in table order, so an out-of-order table yields the forecast
slice at dates 4, 1, 2 — neither ascending nor the three earliest dates
(which would be 1, 2, 3). -/
theorem deep_dive_slice_unsorted :
    ((extractSeries tblUnsorted "Demand").2.map (·.date)) = [4, 1, 2] ∧
    ¬ ((extractSeries tblUnsorted "Demand").2.map (·.date)).Pairwise (· ≤ ·) ∧
    ((extractSeries tblUnsorted "Demand").2.map (·.date)) ≠ [1, 2, 3] :=
  ⟨by decide, by decide, by decide⟩

/-- C5 (amended).  `extractSeries` keeps the kpi's rows in input-table order
and truncates the forecast rows to the first three in that order; when the
kpi's rows appear in ascending date order in the table — as the spec
presumes — the full series is ascending and the slice is exactly the three
earliest-dated forecast rows, in ascending order. -/
theorem deep_dive_sorted_slice (df : List Row) (k : String)
    (hs : ((rowsFor df k).map (·.date)).Pairwise (· ≤ ·)) :
    ((extractSeries df k).1.map (·.date)).Pairwise (· ≤ ·) ∧
    ((extractSeries df k).2.map (·.date)).Pairwise (· ≤ ·) ∧
    (extractSeries df k).2.length
      = min 3 ((rowsFor df k).filter (fun r => r.actual.isNone)).length ∧
    ∀ x ∈ (extractSeries df k).2.map (·.date),
      ∀ y ∈ (((rowsFor df k).filter (fun r => r.actual.isNone)).drop 3).map (·.date),
        x ≤ y := by
  have hs' : (rowsFor df k).Pairwise (fun a b => a.date ≤ b.date) := List.pairwise_map.mp hs
  have hfl : ((rowsFor df k).filter (fun r => r.actual.isNone)).Pairwise
      (fun a b => a.date ≤ b.date) :=
    List.Pairwise.sublist (List.filter_sublist _) hs'
  refine ⟨hs, ?_, ?_, ?_⟩
  · exact List.pairwise_map.mpr (List.Pairwise.sublist (List.take_sublist _ _) hfl)
  · exact List.length_take _ _
  · intro x hx y hy
    rcases List.mem_map.mp hx with ⟨rx, hrx, rfl⟩
    rcases List.mem_map.mp hy with ⟨ry, hry, rfl⟩
    have hsplit := hfl
    rw [← List.take_append_drop 3 ((rowsFor df k).filter (fun r => r.actual.isNone)),
      List.pairwise_append] at hsplit
    exact hsplit.2.2 rx hrx ry hry

/-- Forecast table with five forecast rows in ascending date order. -/
def tblSorted : List Row :=
  [{ date := 1, name := "Demand", actual := none, predicted := some 1 },
   { date := 2, name := "Demand", actual := none, predicted := some 2 },
   { date := 3, name := "Demand", actual := none, predicted := some 3 },
   { date := 4, name := "Demand", actual := none, predicted := some 4 },
   { date := 5, name := "Demand", actual := none, predicted := some 5 }]

/-- Witness for the amended C5: five sorted forecast rows give an ascending
slice of length three, and a sliced date (3) precedes a dropped one (4). -/
theorem deep_dive_sorted_slice_witness :
    ((rowsFor tblSorted "Demand").map (·.date)).Pairwise (· ≤ ·) ∧
    ((extractSeries tblSorted "Demand").2.map (·.date)).Pairwise (· ≤ ·) ∧
    (extractSeries tblSorted "Demand").2.length
      = min 3 ((rowsFor tblSorted "Demand").filter (fun r => r.actual.isNone)).length ∧
    (3 : Nat) ≤ 4 := by
  have h := deep_dive_sorted_slice tblSorted "Demand" (by decide)
  exact ⟨by decide, h.2.1, h.2.2.1, h.2.2.2 3 (by decide) 4 (by decide)⟩

theorem sdev_comm (xs ys : List ℚ) : sdev xs ys = sdev ys xs := by
  unfold sdev
  exact congrArg List.sum (List.zipWith_comm_of_comm _ mul_comm _ _)

theorem sdev_self_eq (xs : List ℚ) : sdev xs xs = ((devs xs).map (fun x => x * x)).sum := by
  unfold sdev
  rw [List.zipWith_same]

theorem sdev_self_nonneg (xs : List ℚ) : 0 ≤ sdev xs xs := by
  rw [sdev_self_eq]
  apply List.sum_nonneg
  intro x hx
  rcases List.mem_map.mp hx with ⟨y, _, rfl⟩
  exact mul_self_nonneg y

theorem zip_mul_sum (a : List ℚ) : ∀ b : List ℚ,
    (List.zipWith (fun x y => x * y) a b).sum
      = ∑ i ∈ Finset.range (min a.length b.length), a.getD i 0 * b.getD i 0 := by
  induction a with
  | nil => intro b; simp
  | cons x a ih =>
      intro b
      cases b with
      | nil => simp
      | cons y b =>
          simp only [List.zipWith_cons_cons, List.sum_cons, List.length_cons,
            Nat.succ_min_succ]
          rw [ih b, Finset.sum_range_succ']
          simp only [List.getD_cons_succ, List.getD_cons_zero]
          ring

theorem sdev_sq_le (xs ys : List ℚ) : sdev xs ys ^ 2 ≤ sdev xs xs * sdev ys ys := by
  unfold sdev
  rw [zip_mul_sum, zip_mul_sum, zip_mul_sum, min_self, min_self]
  simp only [← pow_two]
  calc (∑ i ∈ Finset.range (min (devs xs).length (devs ys).length),
          (devs xs).getD i 0 * (devs ys).getD i 0) ^ 2
      ≤ (∑ i ∈ Finset.range (min (devs xs).length (devs ys).length), (devs xs).getD i 0 ^ 2)
        * ∑ i ∈ Finset.range (min (devs xs).length (devs ys).length), (devs ys).getD i 0 ^ 2 :=
        Finset.sum_mul_sq_le_sq_mul_sq _ _ _
    _ ≤ (∑ i ∈ Finset.range (devs xs).length, (devs xs).getD i 0 ^ 2)
        * ∑ i ∈ Finset.range (devs ys).length, (devs ys).getD i 0 ^ 2 := by
        apply mul_le_mul
        · exact Finset.sum_le_sum_of_subset_of_nonneg
            (Finset.range_subset.mpr (min_le_left _ _)) (fun i _ _ => sq_nonneg _)
        · exact Finset.sum_le_sum_of_subset_of_nonneg
            (Finset.range_subset.mpr (min_le_right _ _)) (fun i _ _ => sq_nonneg _)
        · exact Finset.sum_nonneg (fun i _ => sq_nonneg _)
        · exact Finset.sum_nonneg (fun i _ => sq_nonneg _)

/-- C6.  The correlation matrix is symmetric — for every pair of kpi names the
(a, b) and (b, a) entries agree — and the diagonal entry is exactly 1.0 for
every kpi whose zero-filled series has a nonzero sum of squared deviations
(nonzero variance). -/
theorem correlation_symmetric_diag (t : List HRow) (a b : String) :
    corrMatrixEntry t a b = corrMatrixEntry t b a ∧
    (sdev (series t a) (series t a) ≠ 0 → corrMatrixEntry t a a = some 1) := by
  constructor
  · unfold corrMatrixEntry pearson
    by_cases h : sdev (series t a) (series t a) = 0 ∨ sdev (series t b) (series t b) = 0
    · rw [if_pos h, if_pos h.symm]
    · rw [if_neg h, if_neg (fun hc => h hc.symm)]
      rw [sdev_comm (series t a) (series t b),
        mul_comm ((sdev (series t a) (series t a) : ℚ) : ℝ)
          ((sdev (series t b) (series t b) : ℚ) : ℝ)]
  · intro h
    unfold corrMatrixEntry pearson
    rw [if_neg (by simpa using h)]
    have hnn : (0 : ℝ) ≤ ((sdev (series t a) (series t a) : ℚ) : ℝ) := by
      exact_mod_cast sdev_self_nonneg _
    have hne : ((sdev (series t a) (series t a) : ℚ) : ℝ) ≠ 0 := by
      exact_mod_cast h
    rw [Real.sqrt_mul_self hnn, div_self hne]

/-- Historical table on which the two series co-move exactly: kpi `a` takes
values 1, 2 and kpi `b` takes values 2, 4 over the two dates. -/
def histLinear : List HRow :=
  [⟨0, "a", 1⟩, ⟨1, "a", 2⟩, ⟨0, "b", 2⟩, ⟨1, "b", 4⟩]

/-- Witness for C6: on `histLinear`, kpi `a` has nonzero variance, the
diagonal entry is 1, and the (a, b) entry equals the (b, a) entry. -/
theorem correlation_symmetric_diag_witness :
    sdev (series histLinear "a") (series histLinear "a") ≠ 0 ∧
    corrMatrixEntry histLinear "a" "a" = some 1 ∧
    corrMatrixEntry histLinear "a" "b" = corrMatrixEntry histLinear "b" "a" := by
  have hne : sdev (series histLinear "a") (series histLinear "a") ≠ 0 := by
    norm_num +decide [sdev, devs, listMean, series, histDates, dedupDates, sortAsc, insertAsc,
      cell, histLinear, List.filter]
  exact ⟨hne, (correlation_symmetric_diag histLinear "a" "a").2 hne,
    (correlation_symmetric_diag histLinear "a" "b").1⟩

/-- C7 (amended).  Every defined entry of the correlation matrix lies in
[-1, 1]; an entry is undefined (NaN) exactly when either zero-filled series
has a zero sum of squared deviations (zero variance, which covers tables with
fewer than two distinct dates) — the source never coerces such entries
to 0.0. -/
theorem correlation_bounds_undefined (t : List HRow) (a b : String) :
    (∀ r : ℝ, corrMatrixEntry t a b = some r → -1 ≤ r ∧ r ≤ 1) ∧
    (corrMatrixEntry t a b = none ↔
      (sdev (series t a) (series t a) = 0 ∨ sdev (series t b) (series t b) = 0)) := by
  constructor
  · intro r hr
    unfold corrMatrixEntry pearson at hr
    by_cases h : sdev (series t a) (series t a) = 0 ∨ sdev (series t b) (series t b) = 0
    · rw [if_pos h] at hr
      exact absurd hr (by simp)
    · rw [if_neg h] at hr
      obtain ⟨hA, hB⟩ := not_or.mp h
      have hA' : (0 : ℝ) < ((sdev (series t a) (series t a) : ℚ) : ℝ) := by
        exact_mod_cast lt_of_le_of_ne (sdev_self_nonneg _) (Ne.symm hA)
      have hB' : (0 : ℝ) < ((sdev (series t b) (series t b) : ℚ) : ℝ) := by
        exact_mod_cast lt_of_le_of_ne (sdev_self_nonneg _) (Ne.symm hB)
      have hAB : (0 : ℝ) < ((sdev (series t a) (series t a) : ℚ) : ℝ)
          * ((sdev (series t b) (series t b) : ℚ) : ℝ) := mul_pos hA' hB'
      have hsq : ((sdev (series t a) (series t b) : ℚ) : ℝ) ^ 2
          ≤ ((sdev (series t a) (series t a) : ℚ) : ℝ)
            * ((sdev (series t b) (series t b) : ℚ) : ℝ) := by
        exact_mod_cast sdev_sq_le (series t a) (series t b)
      have habs : |((sdev (series t a) (series t b) : ℚ) : ℝ)|
          ≤ Real.sqrt (((sdev (series t a) (series t a) : ℚ) : ℝ)
            * ((sdev (series t b) (series t b) : ℚ) : ℝ)) := by
        rw [← Real.sqrt_sq_eq_abs]
        exact Real.sqrt_le_sqrt hsq
      have hpos : (0 : ℝ) < Real.sqrt (((sdev (series t a) (series t a) : ℚ) : ℝ)
          * ((sdev (series t b) (series t b) : ℚ) : ℝ)) := Real.sqrt_pos.mpr hAB
      have hone : |((sdev (series t a) (series t b) : ℚ) : ℝ)
          / Real.sqrt (((sdev (series t a) (series t a) : ℚ) : ℝ)
            * ((sdev (series t b) (series t b) : ℚ) : ℝ))| ≤ 1 := by
        rw [abs_div, abs_of_pos hpos]
        exact (div_le_one hpos).mpr habs
      have hval := Option.some.inj hr
      rw [← hval]
      exact abs_le.mp hone
  · unfold corrMatrixEntry pearson
    by_cases h : sdev (series t a) (series t a) = 0 ∨ sdev (series t b) (series t b) = 0
    · simp [h]
    · simp [h]

/-- Historical table with a constant (zero-variance) kpi `b`. -/
def histFlat : List HRow :=
  [⟨0, "a", 1⟩, ⟨1, "a", 2⟩, ⟨0, "b", 5⟩, ⟨1, "b", 5⟩]

/-- Counterexample to C7 as stated: with a zero-variance series, the Pearson
entry is undefined (NaN) and the source leaves it that way — it is not
coerced to 0.0. -/
theorem correlation_undefined_not_zero :
    corrMatrixEntry histFlat "a" "b" = none ∧
    corrMatrixEntry histFlat "a" "b" ≠ some (0 : ℝ) := by
  have hz : sdev (series histFlat "b") (series histFlat "b") = 0 := by
    norm_num +decide [sdev, devs, listMean, series, histDates, dedupDates, sortAsc, insertAsc,
      cell, histFlat, List.filter]
  have hnone : corrMatrixEntry histFlat "a" "b" = none := by
    unfold corrMatrixEntry pearson
    rw [if_pos (Or.inr hz)]
  exact ⟨hnone, by rw [hnone]; simp⟩

/-- Witness for the amended C7: on `histLinear` the (a, b) entry is defined
and equal to 1, which indeed lies in [-1, 1]. -/
theorem correlation_bounds_undefined_witness :
    corrMatrixEntry histLinear "a" "b" = some 1 ∧
    (-1 ≤ (1 : ℝ) ∧ (1 : ℝ) ≤ 1) := by
  have hxy : sdev (series histLinear "a") (series histLinear "b") = 1 := by
    norm_num +decide [sdev, devs, listMean, series, histDates, dedupDates, sortAsc, insertAsc,
      cell, histLinear, List.filter]
  have hxx : sdev (series histLinear "a") (series histLinear "a") = 1/2 := by
    norm_num +decide [sdev, devs, listMean, series, histDates, dedupDates, sortAsc, insertAsc,
      cell, histLinear, List.filter]
  have hyy : sdev (series histLinear "b") (series histLinear "b") = 2 := by
    norm_num +decide [sdev, devs, listMean, series, histDates, dedupDates, sortAsc, insertAsc,
      cell, histLinear, List.filter]
  have hsome : corrMatrixEntry histLinear "a" "b" = some 1 := by
    unfold corrMatrixEntry pearson
    rw [if_neg (by norm_num [hxx, hyy]), hxy, hxx, hyy]
    have : ((1/2 : ℚ) : ℝ) * ((2 : ℚ) : ℝ) = 1 := by push_cast; norm_num
    rw [this, Real.sqrt_one]
    norm_num
  exact ⟨hsome, (correlation_bounds_undefined histLinear "a" "b").1 1 hsome⟩

/-- Forecast table whose component rows carry confidence-band values. -/
def tblBands : List Row :=
  [{ date := 1, name := "New Vehicles - Retail", actual := some 10, predicted := some 11,
     yhatLower := some 9, yhatUpper := some 12 },
   { date := 1, name := "Used Vehicles - Retail", actual := some 5, predicted := some 6,
     yhatLower := some 4, yhatUpper := some 7 }]

/-- Witness for C10: both components carry `yhat` bands, yet the appended
composite row leaves both band columns missing. -/
theorem composite_rows_only_core_fields_witness :
    (combineRow "Total Vehicle Sales (Verified)" (rowsFor tblBands "New Vehicles - Retail")
        (rowsFor tblBands "Used Vehicles - Retail") 1)
      ∈ (buildComposite tblBands "new vehicles - retail" "used vehicles - retail"
        "Total Vehicle Sales (Verified)").drop tblBands.length ∧
    ((combineRow "Total Vehicle Sales (Verified)" (rowsFor tblBands "New Vehicles - Retail")
        (rowsFor tblBands "Used Vehicles - Retail") 1).name = "Total Vehicle Sales (Verified)" ∧
      (combineRow "Total Vehicle Sales (Verified)" (rowsFor tblBands "New Vehicles - Retail")
        (rowsFor tblBands "Used Vehicles - Retail") 1).yhatLower = none ∧
      (combineRow "Total Vehicle Sales (Verified)" (rowsFor tblBands "New Vehicles - Retail")
        (rowsFor tblBands "Used Vehicles - Retail") 1).yhatUpper = none) := by
  have hmem : (combineRow "Total Vehicle Sales (Verified)"
      (rowsFor tblBands "New Vehicles - Retail") (rowsFor tblBands "Used Vehicles - Retail") 1)
      ∈ (buildComposite tblBands "new vehicles - retail" "used vehicles - retail"
        "Total Vehicle Sales (Verified)").drop tblBands.length := by
    exact List.mem_singleton.mpr rfl
  exact ⟨hmem, composite_rows_only_core_fields tblBands "new vehicles - retail"
    "used vehicles - retail" "Total Vehicle Sales (Verified)" _ hmem⟩

end CarSales
